import Mathlib

/-!
Shallow embedding of the DNS filtering proxy in src/dns.c.

Datagrams are modelled as lists of natural numbers (one per octet).
The embedding follows the source, in particular:
- the header bit tests in main (lines 426-431) on the glibc HEADER
  bitfields (on a little-endian host: byte 2 = RD|TC|AA|opcode|QR with QR
  as bit 7, byte 3 = RCODE|CD|AD|unused|RA with RA as bit 7, and the four
  counts kept in wire byte order, so only their zero tests are meaningful);
- getDnsRequestData (lines 213-232), including the fact that the length
  octets are read through a signed char (so an octet of 128 or more is a
  negative length) and that the writes into the destination buffer are not
  bounded;
- the in-place header rewrite used for the three error replies
  (qr := 1, aa := 1, ra := 1, rcode := r, ancount := 0, nscount := 0,
  everything else in the buffer untouched);
- the 32-slot correlation arrays with the write cursor that wraps from 31
  back to 0 (lines 399-403, 491-497) and the linear resolve scan
  (lines 524-533);
- the poll/recv/send control flow of the event loop (lines 412-536),
  where a failed poll calls clear(), which exits the process.
-/

set_option maxRecDepth 4000

namespace DnsProxy

/-- Octet i of a datagram; reads past the end of the datagram yield 0. -/
def byteAt (buf : List Nat) (i : Nat) : Nat := buf.getD i 0

/-- Octet i read through a signed char, as getDnsRequestData does. -/
def sByte (buf : List Nat) (i : Nat) : Int :=
  let b := byteAt buf i
  if b < 128 then (b : Int) else (b : Int) - 256

/-- Transaction id as the code sees it: ntohs of the first 16-bit field. -/
def hdrId (buf : List Nat) : Nat := byteAt buf 0 * 256 + byteAt buf 1

/-- QR bit (bit 7 of octet 2 in the glibc little-endian HEADER layout). -/
def hdrQr (buf : List Nat) : Nat := byteAt buf 2 / 128 % 2

/-- Reserved (unused/Z) bit: bit 6 of octet 3. -/
def hdrUnused (buf : List Nat) : Nat := byteAt buf 3 / 64 % 2

/-- Checking-disabled bit: bit 4 of octet 3. -/
def hdrCd (buf : List Nat) : Nat := byteAt buf 3 / 16 % 2

/-- Question count bitfield (wire byte order; only its zero test is used). -/
def hdrQdcount (buf : List Nat) : Nat := byteAt buf 4 + 256 * byteAt buf 5

/-- Answer count bitfield (wire byte order; only its zero test is used). -/
def hdrAncount (buf : List Nat) : Nat := byteAt buf 6 + 256 * byteAt buf 7

/-- The header sanity test of main, lines 428-431. -/
def badPacket (buf : List Nat) : Bool :=
  hdrQr buf != 0 || hdrUnused buf != 0 || hdrCd buf != 0 ||
    hdrQdcount buf == 0 || hdrAncount buf != 0

/-- The name-extraction loop of getDnsRequestData, lines 216-227.
The state is (fuel, sum, offset, counter, acc): sum is the signed length
octet last read, offset and counter are the C variables of the same name,
and acc holds the octets written so far (the C code writes them at
successive indices 0, 1, 2, ... of its destination buffer, so the k-th
element of acc is the octet stored at index k).  The inner copy loop
runs while counter is at most offset + sum, i.e. for
(offset + sum + 1 - counter) iterations when that count is positive. -/
def decodeLoop (buf : List Nat) : Nat → Int → Nat → Nat → List Nat → List Nat × Nat
  | 0, _, _, counter, acc => (acc, counter)
  | fuel + 1, sum, offset, counter, acc =>
      if sum = 0 then (acc, counter)
      else
        let acc1 := if offset ≠ 0 then acc ++ [46] else acc
        let n : Nat := ((offset : Int) + sum + 1 - (counter : Int)).toNat
        let acc2 := acc1 ++ (List.range n).map (fun k => byteAt buf (12 + counter + k))
        let c2 := counter + n
        decodeLoop buf fuel (sByte buf (12 + c2)) c2 (c2 + 1) acc2

/-- The octets written for the name, and the final value of counter.
2048 fuel is enough for every datagram that fits the 1000-octet receive
buffer, because counter strictly increases on every iteration and a read
past the end of the datagram returns 0, which stops the loop. -/
def rawName (buf : List Nat) : List Nat × Nat :=
  decodeLoop buf 2048 (sByte buf 12) 0 1 []

/-- getDnsRequestData: the decoded name as the C string the callers see
(the octets written up to the first NUL), the query type and the query
class (ntohs of the two 16-bit fields after the final counter). -/
def getDnsRequestData (buf : List Nat) : List Nat × Nat × Nat :=
  let r := rawName buf
  (r.1.takeWhile (fun b => b != 0),
   byteAt buf (12 + r.2) * 256 + byteAt buf (12 + r.2 + 1),
   byteAt buf (12 + r.2 + 2) * 256 + byteAt buf (12 + r.2 + 3))

/-- isBlacklisted, lines 159-168: strstr of each entry inside the name,
stopping at the first match. -/
def isBlacklisted (bl : List (List Nat)) (name : List Nat) : Bool :=
  bl.any (fun e => decide (e <:+: name))

/-- New octet 2 of an error reply: qr := 1 (bit 7), aa := 1 (bit 2),
rd, tc (bits 0-1) and opcode (bits 3-6) kept. -/
def newByte2 (b2 : Nat) : Nat := 128 + b2 / 8 % 16 * 8 + 4 + b2 % 4

/-- New octet 3 of an error reply: ra := 1 (bit 7), rcode := r (bits 0-3),
cd, ad, unused (bits 4-6) kept. -/
def newByte3 (b3 r : Nat) : Nat := 128 + b3 / 16 % 8 * 16 + r

/-- The in-place header rewrite of the error replies (lines 444-450,
462-468, 479-485): octets 2 and 3 updated, ancount and nscount (octets
6-9) zeroed, everything else - id, qdcount, arcount and the whole
question section - untouched.  Like the memcpy back into the receive
buffer, it never changes the length of the datagram. -/
def rewriteHeader (buf : List Nat) (r : Nat) : List Nat :=
  (((((buf.set 2 (newByte2 (byteAt buf 2))).set 3
      (newByte3 (byteAt buf 3) r)).set 6 0).set 7 0).set 8 0).set 9 0

/-- The correlation state: ids, ports, addresses (32 slots each in the
reachable states) and the write cursor portsCounter. -/
structure Table where
  ids : List Nat
  ports : List Nat
  addrs : List Nat
  cursor : Nat
deriving DecidableEq

/-- The zero-initialized arrays of main, lines 399-403. -/
def tableInit : Table :=
  ⟨List.replicate 32 0, List.replicate 32 0, List.replicate 32 0, 0⟩

/-- Record (lines 491-497): write the entry at the cursor slot, advance,
and wrap only when the incremented cursor equals 31. -/
def record (t : Table) (x p a : Nat) : Table :=
  let c := t.cursor
  ⟨t.ids.set c x, t.ports.set c p, t.addrs.set c a,
    if c + 1 = 31 then 0 else c + 1⟩

/-- A sequence of Record calls, oldest first. -/
def recordAll (t : Table) (l : List (Nat × Nat × Nat)) : Table :=
  l.foldl (fun s e => record s e.1 e.2.1 e.2.2) t

/-- The linear scan of Resolve over the three parallel arrays. -/
def resolveAux : List Nat → List Nat → List Nat → Nat → Option (Nat × Nat)
  | i :: is, p :: ps, a :: as, x =>
      if i = x then some (p, a) else resolveAux is ps as x
  | _, _, _, _ => none

/-- Resolve (lines 524-533): first slot in index order whose id matches. -/
def resolve (t : Table) (x : Nat) : Option (Nat × Nat) :=
  resolveAux t.ids t.ports t.addrs x

/-- A datagram sent by one loop iteration, with its destination. -/
inductive Send where
  | toClient (port ip : Nat) (bytes : List Nat)
  | toServer (bytes : List Nat)
deriving DecidableEq

/-- The client-question branch of the loop (lines 419-503).  When the
header sanity test fails the code skips getDnsRequestData and leaves
type and class at 0, so the format-error branch is taken.  A failed
sendto only logs, so the outputs below are the attempted sends. -/
def handleClient (bl : List (List Nat)) (t : Table) (cport cip : Nat)
    (buf : List Nat) : Table × List Send :=
  let bad := badPacket buf
  let d := getDnsRequestData buf
  let ty := if bad then 0 else d.2.1
  let cl := if bad then 0 else d.2.2
  if ty = 0 ∨ cl = 0 ∨ bad = true then
    (t, [Send.toClient cport cip (rewriteHeader buf 1)])
  else if ty ≠ 1 ∨ cl ≠ 1 then
    (t, [Send.toClient cport cip (rewriteHeader buf 4)])
  else if isBlacklisted bl d.1 then
    (t, [Send.toClient cport cip (rewriteHeader buf 5)])
  else
    (record t (hdrId buf) cport cip, [Send.toServer buf])

/-- The server-answer branch of the loop (lines 505-535): a source
mismatch is only logged, the answer is routed by resolving its
transaction id, and on no match it is dropped. -/
def handleServer (t : Table) (buf : List Nat) : List Send :=
  match resolve t (hdrId buf) with
  | some pa => [Send.toClient pa.1 pa.2 buf]
  | none => []

/-- The events one iteration of the loop can wake up on. -/
inductive LoopEvent where
  | pollError
  | clientRecvError
  | clientMsg (cport cip : Nat) (buf : List Nat)
  | serverRecvError
  | serverMsg (sport sip : Nat) (buf : List Nat)
deriving DecidableEq

/-- Outcome of one loop iteration: either the process exited, or the loop
keeps running with a new correlation state after attempting some sends. -/
inductive StepResult where
  | exited
  | running (t : Table) (out : List Send)
deriving DecidableEq

/-- One iteration of the while(1) loop, lines 412-536.  A failed poll
calls clear(), which closes the sockets, frees memory and exits the
process (lines 71-91, 414-417); a failed recvfrom on either socket logs
and continues; datagram processing always falls through to the next
iteration. -/
def loopStep (bl : List (List Nat)) (t : Table) : LoopEvent → StepResult
  | .pollError => .exited
  | .clientRecvError => .running t []
  | .clientMsg cp ci buf =>
      .running (handleClient bl t cp ci buf).1 (handleClient bl t cp ci buf).2
  | .serverRecvError => .running t []
  | .serverMsg _ _ buf => .running t (handleServer t buf)

/-- Correlation states reachable by the loop: the zero-initialized arrays,
then any sequence of Record calls. -/
inductive Reachable : Table → Prop where
  | init : Reachable tableInit
  | step : ∀ t x p a, Reachable t → Reachable (record t x p a)

/-- A well-formed A/IN query used as concrete witness input:
id 1, rd set, one question, name www.example.com, type 1, class 1. -/
def q1 : List Nat :=
  [0, 1, 1, 0, 0, 1, 0, 0, 0, 0, 0, 0] ++
    [3, 119, 119, 119, 7, 101, 120, 97, 109, 112, 108, 101, 3, 99, 111, 109, 0] ++
    [0, 1] ++ [0, 1]

/-- An MX query (type 15) for the name ads, witness input for C2 and C4. -/
def q2 : List Nat :=
  [0, 7, 0, 0, 0, 1, 0, 0, 0, 0, 0, 0] ++ [3, 97, 100, 115, 0] ++ [0, 15] ++ [0, 1]

/-- A query with the response flag set (octet 2 bit 7), witness for C3. -/
def badQ : List Nat := [0, 3, 128, 0, 0, 1, 0, 0, 0, 0, 0, 0]

/-- A one-entry blacklist holding the string ads. -/
def bl0 : List (List Nat) := [[97, 100, 115]]

/-- An upstream answer datagram with transaction id 5. -/
def ans5 : List Nat := [0, 5, 129, 128, 0, 1, 0, 1, 0, 0, 0, 0]

/-- An upstream answer datagram with transaction id 0. -/
def ans0 : List Nat := [0, 0, 129, 128, 0, 1, 0, 1, 0, 0, 0, 0]

/-- A question whose name encoding starts with a compression pointer
(octets 0xC0 0x0C), followed by twelve letter octets and a terminator. -/
def ptrPkt : List Nat :=
  [0, 9, 0, 0, 0, 1, 0, 0, 0, 0, 0, 0] ++ [192, 12] ++
    [97, 98, 99, 100, 101, 102, 103, 104, 105, 106, 107, 108] ++ [0] ++
    [0, 1] ++ [0, 1]

/-- A 593-octet query whose question name is nine 63-octet labels: its
decoded name is 575 octets long, past the 512-octet stack buffer of main. -/
def overflowPkt : List Nat :=
  [0, 1, 0, 0, 0, 1, 0, 0, 0, 0, 0, 0] ++
    (List.replicate 9 (63 :: List.replicate 63 65)).flatten ++ [0] ++ [0, 1, 0, 1]

/-- Thirty-two records with pairwise-distinct ids 0, 1, ..., 31. -/
def c8recs : List (Nat × Nat × Nat) :=
  (List.range 32).map (fun i => (i, 100 + i, 200 + i))

/-- Thirty-two records with pairwise-distinct nonzero ids 1, ..., 32. -/
def c8recsW : List (Nat × Nat × Nat) :=
  (List.range 32).map (fun i => (i + 1, 101 + i, 201 + i))

/-!  Helper lemmas about list surgery and the header rewrite. -/

theorem getD_set_ne (l : List Nat) (a d : Nat) :
    ∀ i j : Nat, i ≠ j → (l.set i a).getD j d = l.getD j d := by
  induction l with
  | nil => intro i j _; rfl
  | cons x xs ih =>
    intro i j h
    cases i with
    | zero =>
      cases j with
      | zero => exact absurd rfl h
      | succ j => simp
    | succ i =>
      cases j with
      | zero => simp
      | succ j => simpa using ih i j (by omega)

theorem getD_set_self (l : List Nat) (a d : Nat) :
    ∀ i : Nat, i < l.length → (l.set i a).getD i d = a := by
  induction l with
  | nil => intro i h; simp at h
  | cons x xs ih =>
    intro i h
    cases i with
    | zero => simp
    | succ i => simpa using ih i (by simpa using h)

theorem drop_set_lt (l : List Nat) (a : Nat) :
    ∀ i n : Nat, i < n → (l.set i a).drop n = l.drop n := by
  induction l with
  | nil => intro i n _; rfl
  | cons x xs ih =>
    intro i n h
    cases n with
    | zero => omega
    | succ n =>
      cases i with
      | zero => simp
      | succ i => simpa using ih i n (by omega)

theorem length_rewriteHeader (buf : List Nat) (r : Nat) :
    (rewriteHeader buf r).length = buf.length := by
  simp [rewriteHeader]

theorem drop12_rewriteHeader (buf : List Nat) (r : Nat) :
    (rewriteHeader buf r).drop 12 = buf.drop 12 := by
  unfold rewriteHeader
  rw [drop_set_lt _ _ 9 12 (by omega), drop_set_lt _ _ 8 12 (by omega),
    drop_set_lt _ _ 7 12 (by omega), drop_set_lt _ _ 6 12 (by omega),
    drop_set_lt _ _ 3 12 (by omega), drop_set_lt _ _ 2 12 (by omega)]

theorem byteAt_rewriteHeader_ne (buf : List Nat) (r j : Nat)
    (h2 : j ≠ 2) (h3 : j ≠ 3) (h6 : j ≠ 6) (h7 : j ≠ 7) (h8 : j ≠ 8) (h9 : j ≠ 9) :
    byteAt (rewriteHeader buf r) j = byteAt buf j := by
  unfold rewriteHeader byteAt
  rw [getD_set_ne _ _ _ 9 j (by omega), getD_set_ne _ _ _ 8 j (by omega),
    getD_set_ne _ _ _ 7 j (by omega), getD_set_ne _ _ _ 6 j (by omega),
    getD_set_ne _ _ _ 3 j (by omega), getD_set_ne _ _ _ 2 j (by omega)]

theorem byteAt_rewriteHeader_three (buf : List Nat) (r : Nat) (h : 4 ≤ buf.length) :
    byteAt (rewriteHeader buf r) 3 = newByte3 (byteAt buf 3) r := by
  unfold rewriteHeader byteAt
  rw [getD_set_ne _ _ _ 9 3 (by omega), getD_set_ne _ _ _ 8 3 (by omega),
    getD_set_ne _ _ _ 7 3 (by omega), getD_set_ne _ _ _ 6 3 (by omega),
    getD_set_self _ _ _ 3 (by simp; omega)]

theorem rcode_newByte3 (b3 r : Nat) (h : r < 16) : newByte3 b3 r % 16 = r := by
  unfold newByte3; omega

theorem hdrId_rewriteHeader (buf : List Nat) (r : Nat) :
    hdrId (rewriteHeader buf r) = hdrId buf := by
  unfold hdrId
  rw [byteAt_rewriteHeader_ne buf r 0 (by omega) (by omega) (by omega) (by omega)
      (by omega) (by omega),
    byteAt_rewriteHeader_ne buf r 1 (by omega) (by omega) (by omega) (by omega)
      (by omega) (by omega)]

theorem badPacket_iff (buf : List Nat) :
    badPacket buf = true ↔
      hdrQr buf ≠ 0 ∨ hdrUnused buf ≠ 0 ∨ hdrCd buf ≠ 0 ∨
        hdrQdcount buf = 0 ∨ hdrAncount buf ≠ 0 := by
  simp [badPacket]
  tauto

/-!  Claims C1 to C4: the per-datagram behaviour of the loop. -/

/-- C1.  A well-formed query (header sanity passed, type 1, class 1,
name not blacklisted) is forwarded to the upstream endpoint as exactly
the received octets, and an upstream answer whose transaction id
resolves in the correlation table is sent to the resolved client
endpoint as exactly the received octets. -/
theorem c1_forward_exact (bl : List (List Nat)) (t : Table) (cp ci : Nat)
    (buf : List Nat) (t2 : Table) (abuf : List Nat) (p a : Nat)
    (hbad : badPacket buf = false)
    (hty : (getDnsRequestData buf).2.1 = 1)
    (hcl : (getDnsRequestData buf).2.2 = 1)
    (hbl : isBlacklisted bl (getDnsRequestData buf).1 = false)
    (hres : resolve t2 (hdrId abuf) = some (p, a)) :
    (handleClient bl t cp ci buf).2 = [Send.toServer buf] ∧
      handleServer t2 abuf = [Send.toClient p a abuf] := by
  constructor
  · simp [handleClient, hbad, hty, hcl, hbl]
  · simp [handleServer, hres]

/-- Witness for C1 at concrete inputs: the query q1 over an empty
blacklist, and the answer ans5 against a table that recorded id 5. -/
theorem c1_forward_exact_witness :
    badPacket q1 = false ∧ (getDnsRequestData q1).2.1 = 1 ∧
      (getDnsRequestData q1).2.2 = 1 ∧
      isBlacklisted [] (getDnsRequestData q1).1 = false ∧
      resolve (record tableInit 5 7 9) (hdrId ans5) = some (7, 9) ∧
      ((handleClient [] tableInit 3 4 q1).2 = [Send.toServer q1] ∧
        handleServer (record tableInit 5 7 9) ans5 = [Send.toClient 7 9 ans5]) :=
  ⟨by decide, by decide, by decide, by decide, by decide,
    c1_forward_exact [] tableInit 3 4 q1 (record tableInit 5 7 9) ans5 7 9
      (by decide) (by decide) (by decide) (by decide) (by decide)⟩

/-- C2 counterexample.  The query q2 asks for the name ads with type 15;
its decoded name contains the blacklist entry ads, yet the code replies
with response code 4, not 5, because the type/class test precedes the
blacklist test.  This refutes the claim that every query whose decoded
name contains a blacklist entry is answered with response code 5. -/
theorem c2_blacklist_counterexample :
    isBlacklisted bl0 (getDnsRequestData q2).1 = true ∧
      handleClient bl0 tableInit 3 4 q2 =
        (tableInit, [Send.toClient 3 4 (rewriteHeader q2 4)]) ∧
      byteAt (rewriteHeader q2 4) 3 % 16 = 4 := by
  refine ⟨by decide, by decide, by decide⟩

/-- C2 as amended: a query that passes header sanity and has type 1 and
class 1, and whose decoded name contains at least one stored blacklist
entry as a contiguous substring, is answered with response code 5 and
nothing is sent to the upstream endpoint for it. -/
theorem c2_blacklist_refused (bl : List (List Nat)) (t : Table) (cp ci : Nat)
    (buf : List Nat) (hlen : 12 ≤ buf.length)
    (hbad : badPacket buf = false)
    (hty : (getDnsRequestData buf).2.1 = 1)
    (hcl : (getDnsRequestData buf).2.2 = 1)
    (hbl : isBlacklisted bl (getDnsRequestData buf).1 = true) :
    handleClient bl t cp ci buf = (t, [Send.toClient cp ci (rewriteHeader buf 5)]) ∧
      byteAt (rewriteHeader buf 5) 3 % 16 = 5 ∧
      ∀ b, Send.toServer b ∉ (handleClient bl t cp ci buf).2 := by
  have hmain : handleClient bl t cp ci buf =
      (t, [Send.toClient cp ci (rewriteHeader buf 5)]) := by
    simp [handleClient, hbad, hty, hcl, hbl]
  refine ⟨hmain, ?_, ?_⟩
  · rw [byteAt_rewriteHeader_three buf 5 (by omega)]
    exact rcode_newByte3 _ 5 (by omega)
  · intro b
    rw [hmain]
    simp

/-- Witness for the amended C2: the A/IN query for www.example.com with
the entry ample on the blacklist (substring, not suffix, match). -/
theorem c2_blacklist_refused_witness :
    (12 ≤ q1.length ∧ badPacket q1 = false ∧ (getDnsRequestData q1).2.1 = 1 ∧
        (getDnsRequestData q1).2.2 = 1 ∧
        isBlacklisted [[97, 109, 112, 108, 101]] (getDnsRequestData q1).1 = true) ∧
      handleClient [[97, 109, 112, 108, 101]] tableInit 3 4 q1 =
        (tableInit, [Send.toClient 3 4 (rewriteHeader q1 5)]) := by
  refine ⟨⟨by decide, by decide, by decide, by decide, by decide⟩, ?_⟩
  exact (c2_blacklist_refused [[97, 109, 112, 108, 101]] tableInit 3 4 q1
    (by decide) (by decide) (by decide) (by decide) (by decide)).1

/-- C3.  A query failing any of the five header sanity tests (response
flag, reserved bit, checking-disabled bit, zero question count, nonzero
answer count) is answered with response code 1; the reply is the
received datagram with only octets of the 12-octet header changed: the
length, the transaction id, and the whole question section (octet 12 on)
are unchanged. -/
theorem c3_format_error (bl : List (List Nat)) (t : Table) (cp ci : Nat)
    (buf : List Nat) (hlen : 12 ≤ buf.length)
    (hbad : hdrQr buf ≠ 0 ∨ hdrUnused buf ≠ 0 ∨ hdrCd buf ≠ 0 ∨
      hdrQdcount buf = 0 ∨ hdrAncount buf ≠ 0) :
    handleClient bl t cp ci buf = (t, [Send.toClient cp ci (rewriteHeader buf 1)]) ∧
      (rewriteHeader buf 1).length = buf.length ∧
      (rewriteHeader buf 1).drop 12 = buf.drop 12 ∧
      hdrId (rewriteHeader buf 1) = hdrId buf ∧
      byteAt (rewriteHeader buf 1) 3 % 16 = 1 := by
  have hb : badPacket buf = true := (badPacket_iff buf).mpr hbad
  refine ⟨?_, length_rewriteHeader buf 1, drop12_rewriteHeader buf 1,
    hdrId_rewriteHeader buf 1, ?_⟩
  · simp [handleClient, hb]
  · rw [byteAt_rewriteHeader_three buf 1 (by omega)]
    exact rcode_newByte3 _ 1 (by omega)

/-- Witness for C3 at the concrete query badQ (response flag set). -/
theorem c3_format_error_witness :
    (12 ≤ badQ.length ∧ hdrQr badQ ≠ 0) ∧
      (handleClient [] tableInit 3 4 badQ =
          (tableInit, [Send.toClient 3 4 (rewriteHeader badQ 1)]) ∧
        (rewriteHeader badQ 1).drop 12 = badQ.drop 12 ∧
        hdrId (rewriteHeader badQ 1) = hdrId badQ) := by
  refine ⟨⟨by decide, by decide⟩, ?_⟩
  have h := c3_format_error [] tableInit 3 4 badQ (by decide) (Or.inl (by decide))
  exact ⟨h.1, h.2.2.1, h.2.2.2.1⟩

/-- C4.  A query that passes header sanity and decodes with nonzero type
and class, at least one of which differs from 1, is answered with
response code 4 - for every blacklist, so the classification does not
depend on the blacklist test, which comes later in the code. -/
theorem c4_not_implemented (bl : List (List Nat)) (t : Table) (cp ci : Nat)
    (buf : List Nat) (hlen : 12 ≤ buf.length)
    (hbad : badPacket buf = false)
    (hty : (getDnsRequestData buf).2.1 ≠ 0)
    (hcl : (getDnsRequestData buf).2.2 ≠ 0)
    (hne : (getDnsRequestData buf).2.1 ≠ 1 ∨ (getDnsRequestData buf).2.2 ≠ 1) :
    handleClient bl t cp ci buf = (t, [Send.toClient cp ci (rewriteHeader buf 4)]) ∧
      byteAt (rewriteHeader buf 4) 3 % 16 = 4 := by
  constructor
  · rcases hne with h | h
    · simp [handleClient, hbad, hty, hcl, h]
    · simp [handleClient, hbad, hty, hcl, h]
  · rw [byteAt_rewriteHeader_three buf 4 (by omega)]
    exact rcode_newByte3 _ 4 (by omega)

/-- Witness for C4: the MX query q2 whose name is blacklisted still
gets response code 4. -/
theorem c4_not_implemented_witness :
    (12 ≤ q2.length ∧ badPacket q2 = false ∧ (getDnsRequestData q2).2.1 ≠ 0 ∧
        (getDnsRequestData q2).2.2 ≠ 0 ∧ (getDnsRequestData q2).2.1 ≠ 1) ∧
      handleClient bl0 tableInit 3 4 q2 =
        (tableInit, [Send.toClient 3 4 (rewriteHeader q2 4)]) := by
  refine ⟨⟨by decide, by decide, by decide, by decide, by decide⟩, ?_⟩
  exact (c4_not_implemented bl0 tableInit 3 4 q2 (by decide) (by decide)
    (by decide) (by decide) (Or.inl (by decide))).1

/-- C5.  The decode of the code is not bounded: the single datagram
overflowPkt, which fits the 1000-octet receive buffer, makes
getDnsRequestData write a 575-octet name, i.e. write at indices beyond
511 of the 512-octet stack array name of main; the code has no
NameTooLong (and no TruncatedHeader) failure path at all. -/
theorem c5_decode_overflow :
    (rawName overflowPkt).1.length = 575 ∧
      512 ≤ (rawName overflowPkt).1.length ∧ overflowPkt.length ≤ 1000 := by
  refine ⟨by decide, by decide, by decide⟩

/-- C6 counterexample.  On the datagram ptrPkt, whose question name
starts with the compression-pointer octets 0xC0 0x0C, the decoder does
not fail (it has no failure outcome at all): it returns a mis-decoded
name - a dot followed by the twelve octets after the pointer, the
pointer itself contributing nothing - together with type 1 and class 1.
This refutes the claim that such input makes decode fail with
UnsupportedNameEncoding. -/
theorem c6_pointer_counterexample :
    192 ≤ byteAt ptrPkt 12 ∧
      getDnsRequestData ptrPkt =
        ([46, 97, 98, 99, 100, 101, 102, 103, 104, 105, 106, 107, 108], 1, 1) := by
  refine ⟨by decide, by decide⟩

/-- C6 as amended: a length octet with the two high bits set is not
treated as a pointer and raises no error; read through a signed char it
is negative, so the copy loop copies nothing for it and the scan simply
continues at the following octet, producing a (mis-)decoded name. -/
theorem c6_pointer_no_error (buf : List Nat) (fuel : Nat)
    (hb : 192 ≤ byteAt buf 12) (hb2 : byteAt buf 12 < 256) :
    decodeLoop buf (fuel + 1) (sByte buf 12) 0 1 [] =
      decodeLoop buf fuel (sByte buf 13) 1 2 [] := by
  have hneg : sByte buf 12 < 0 := by
    unfold sByte
    rw [if_neg (by omega)]
    omega
  simp only [decodeLoop]
  rw [if_neg (by omega : ¬ sByte buf 12 = 0)]
  simp [show (sByte buf 12).toNat = 0 from by omega]

/-- Witness for the amended C6 at the concrete datagram ptrPkt. -/
theorem c6_pointer_no_error_witness :
    (192 ≤ byteAt ptrPkt 12 ∧ byteAt ptrPkt 12 < 256) ∧
      decodeLoop ptrPkt 6 (sByte ptrPkt 12) 0 1 [] =
        decodeLoop ptrPkt 5 (sByte ptrPkt 13) 1 2 [] :=
  ⟨⟨by decide, by decide⟩, c6_pointer_no_error ptrPkt 5 (by decide) (by decide)⟩

/-- C7 counterexample.  The claim quantifies over every correlation
state; start from the state that already holds id 7 at slot 0 with
endpoint (9, 9) and cursor 1.  Record(7, 5, 6) writes slot 1, and an
immediate Resolve(7) - no other Record intervening - returns the older
slot (9, 9), not (5, 6), because the scan returns the first matching
slot in index order. -/
theorem c7_roundtrip_counterexample :
    resolve (record (record tableInit 7 9 9) 7 5 6) 7 = some (9, 9) ∧
      some (9, 9) ≠ some ((5 : Nat), (6 : Nat)) := by
  refine ⟨by decide, by decide⟩

theorem resolveAux_set_fresh :
    ∀ (ids ports addrs : List Nat) (c x p a : Nat),
      c < ids.length → ids.length = ports.length → ids.length = addrs.length →
      x ∉ ids →
      resolveAux (ids.set c x) (ports.set c p) (addrs.set c a) x = some (p, a) := by
  intro ids
  induction ids with
  | nil => intro ports addrs c x p a hc _ _ _; simp at hc
  | cons i is ih =>
    intro ports addrs c x p a hc hl1 hl2 hx
    cases ports with
    | nil => simp at hl1
    | cons q qs =>
      cases addrs with
      | nil => simp at hl2
      | cons b bs =>
        cases c with
        | zero => simp [resolveAux]
        | succ c =>
          have hix : i ≠ x := fun h => hx (h ▸ List.mem_cons_self i is)
          simp only [List.set_cons_succ, resolveAux, if_neg hix]
          exact ih qs bs c x p a (by simpa using hc) (by simpa using hl1)
            (by simpa using hl2) (fun h => hx (List.mem_cons_of_mem i h))

/-- C7 as amended: starting from a state none of whose slots already
stores id X (and whose cursor is a valid slot index), Record(X, P, A)
followed immediately by Resolve(X) - before any further Record call -
returns exactly (P, A). -/
theorem c7_record_then_resolve (s : Table) (x p a : Nat)
    (h1 : s.ids.length = 32) (h2 : s.ports.length = 32) (h3 : s.addrs.length = 32)
    (hc : s.cursor < 32) (hx : x ∉ s.ids) :
    resolve (record s x p a) x = some (p, a) := by
  unfold resolve record
  exact resolveAux_set_fresh s.ids s.ports s.addrs s.cursor x p a (by omega)
    (by omega) (by omega) hx

/-- Witness for the amended C7: a fresh table, Record(7, 5, 6). -/
theorem c7_record_then_resolve_witness :
    (tableInit.ids.length = 32 ∧ tableInit.cursor < 32 ∧ 7 ∉ tableInit.ids) ∧
      resolve (record tableInit 7 5 6) 7 = some (5, 6) :=
  ⟨⟨by decide, by decide, by decide⟩,
    c7_record_then_resolve tableInit 7 5 6 (by decide) (by decide) (by decide)
      (by decide) (by decide)⟩

/-- C9 counterexample.  A failed poll inside the running loop does
terminate the process: main calls clear(), which exits (lines 414-417
and 71-91).  This refutes the claim that a failed multiplexed wait never
terminates the process. -/
theorem c9_poll_error_exits :
    loopStep [] tableInit LoopEvent.pollError = StepResult.exited := rfl

/-- C9 as amended: every loop event other than a failed poll - a failed
receive on either socket, any client datagram however malformed (failed
sends only log), any upstream datagram - leaves the loop running. -/
theorem c9_loop_survives (bl : List (List Nat)) (t : Table) (ev : LoopEvent)
    (h : ev ≠ LoopEvent.pollError) : loopStep bl t ev ≠ StepResult.exited := by
  cases ev with
  | pollError => exact absurd rfl h
  | clientRecvError => simp [loopStep]
  | clientMsg cp ci buf => simp [loopStep]
  | serverRecvError => simp [loopStep]
  | serverMsg sp si buf => simp [loopStep]

/-- Witness for the amended C9 at a concrete non-poll event. -/
theorem c9_loop_survives_witness :
    LoopEvent.clientRecvError ≠ LoopEvent.pollError ∧
      loopStep [] tableInit LoopEvent.clientRecvError ≠ StepResult.exited :=
  ⟨by decide, c9_loop_survives [] tableInit LoopEvent.clientRecvError (by decide)⟩

theorem reachable_inv (s : Table) (h : Reachable s) :
    s.ids.length = 32 ∧ s.ports.length = 32 ∧ s.addrs.length = 32 ∧
      s.cursor ≤ 30 ∧ s.ids.getD 31 1 = 0 ∧ s.ports.getD 31 1 = 0 ∧
      s.addrs.getD 31 1 = 0 := by
  induction h with
  | init => refine ⟨by decide, by decide, by decide, by decide, by decide,
      by decide, by decide⟩
  | step t x p a ht ih =>
    obtain ⟨l1, l2, l3, hc, z1, z2, z3⟩ := ih
    refine ⟨by simpa [record] using l1, by simpa [record] using l2,
      by simpa [record] using l3, ?_, ?_, ?_, ?_⟩
    · simp only [record]
      split <;> omega
    · show (t.ids.set t.cursor x).getD 31 1 = 0
      rw [getD_set_ne _ _ _ t.cursor 31 (by omega)]
      exact z1
    · show (t.ports.set t.cursor p).getD 31 1 = 0
      rw [getD_set_ne _ _ _ t.cursor 31 (by omega)]
      exact z2
    · show (t.addrs.set t.cursor a).getD 31 1 = 0
      rw [getD_set_ne _ _ _ t.cursor 31 (by omega)]
      exact z3

theorem resolveAux_zero_match :
    ∀ (ids ports addrs : List Nat),
      ids.length = ports.length → ids.length = addrs.length →
      (∃ k, k < ids.length ∧ ids.getD k 1 = 0) →
      (∀ k, k < ids.length → ids.getD k 1 = 0 →
        ports.getD k 1 = 0 ∧ addrs.getD k 1 = 0) →
      resolveAux ids ports addrs 0 = some (0, 0) := by
  intro ids
  induction ids with
  | nil =>
    intro ports addrs _ _ hex _
    obtain ⟨k, hk, _⟩ := hex
    simp at hk
  | cons i is ih =>
    intro ports addrs hl1 hl2 hex hz
    cases ports with
    | nil => simp at hl1
    | cons q qs =>
      cases addrs with
      | nil => simp at hl2
      | cons b bs =>
        by_cases hi : i = 0
        · subst hi
          have h0 := hz 0 (by simp) (by simp)
          simp only [List.getD_cons_zero] at h0
          simp [resolveAux, h0.1, h0.2]
        · simp only [resolveAux, if_neg hi]
          apply ih qs bs (by simpa using hl1) (by simpa using hl2)
          · obtain ⟨k, hk, hk0⟩ := hex
            cases k with
            | zero => simp only [List.getD_cons_zero] at hk0; exact absurd hk0 hi
            | succ k => exact ⟨k, by simpa using hk, by simpa using hk0⟩
          · intro k hk hk0
            have := hz (k + 1) (by simpa using hk) (by simpa using hk0)
            simpa using this

/-- C10.  In every reachable correlation state in which every slot whose
id is 0 still carries the zero endpoint (i.e. no live Record entry with
id 0 exists - slot 31 is never written, so such a slot always exists),
Resolve(0) matches the first zero-initialized slot and returns port 0
and address 0.0.0.0 instead of not-found, and an upstream answer with
transaction id 0 is therefore sent to endpoint (0, 0.0.0.0) rather
than dropped. -/
theorem c10_zero_id_match (s : Table) (buf : List Nat) (hs : Reachable s)
    (hz : ∀ k, k < 32 → s.ids.getD k 1 = 0 →
      s.ports.getD k 1 = 0 ∧ s.addrs.getD k 1 = 0)
    (hid : hdrId buf = 0) :
    resolve s 0 = some (0, 0) ∧ handleServer s buf = [Send.toClient 0 0 buf] := by
  obtain ⟨l1, l2, l3, hc, z1, z2, z3⟩ := reachable_inv s hs
  have hres : resolve s 0 = some (0, 0) := by
    unfold resolve
    apply resolveAux_zero_match s.ids s.ports s.addrs (by omega) (by omega)
    · exact ⟨31, by omega, z1⟩
    · intro k hk hk0
      exact hz k (by omega) hk0
  refine ⟨hres, ?_⟩
  unfold handleServer
  rw [hid, hres]

/-- Witness for C10: the fresh table and the id-0 answer ans0. -/
theorem c10_zero_id_match_witness :
    ((∀ k, k < 32 → tableInit.ids.getD k 1 = 0 →
        tableInit.ports.getD k 1 = 0 ∧ tableInit.addrs.getD k 1 = 0) ∧
      hdrId ans0 = 0) ∧
      (resolve tableInit 0 = some (0, 0) ∧
        handleServer tableInit ans0 = [Send.toClient 0 0 ans0]) :=
  ⟨⟨by decide, by decide⟩,
    c10_zero_id_match tableInit ans0 Reachable.init (by decide) (by decide)⟩

theorem resolveAux_eq_none :
    ∀ (ids ports addrs : List Nat) (x : Nat),
      (∀ i ∈ ids, i ≠ x) → resolveAux ids ports addrs x = none := by
  intro ids
  induction ids with
  | nil => intro ports addrs x _; cases ports <;> cases addrs <;> rfl
  | cons i is ih =>
    intro ports addrs x h
    cases ports with
    | nil => rfl
    | cons q qs =>
      cases addrs with
      | nil => rfl
      | cons b bs =>
        simp only [resolveAux, if_neg (h i (List.mem_cons_self i is))]
        exact ih qs bs x (fun j hj => h j (List.mem_cons_of_mem i hj))

/-- C8 counterexample.  Recording the 32 pairwise-distinct ids
0, 1, ..., 31 into the fresh table and then resolving the first id (0)
does not return not-found: slot 31 is never written, still holds the
zero-initialized entry, and matches id 0, yielding endpoint (0, 0). -/
theorem c8_ring_counterexample :
    resolve (recordAll tableInit c8recs) 0 = some (0, 0) ∧
      resolve (recordAll tableInit c8recs) 0 ≠ none := by
  refine ⟨by decide, by decide⟩

theorem record_ids (t : Table) (x p a : Nat) :
    (record t x p a).ids = t.ids.set t.cursor x := rfl

theorem record_cursor (t : Table) (x p a : Nat) :
    (record t x p a).cursor = if t.cursor + 1 = 31 then 0 else t.cursor + 1 := rfl

theorem recordAll_cons (t : Table) (e : Nat × Nat × Nat) (l : List (Nat × Nat × Nat)) :
    recordAll t (e :: l) = recordAll (record t e.1 e.2.1 e.2.2) l := rfl

theorem recordAll_append (t : Table) (a b : List (Nat × Nat × Nat)) :
    recordAll t (a ++ b) = recordAll (recordAll t a) b := by
  simp [recordAll, List.foldl_append]

theorem ids_length_recordAll :
    ∀ (l : List (Nat × Nat × Nat)) (t : Table),
      (recordAll t l).ids.length = t.ids.length := by
  intro l
  induction l with
  | nil => intro t; rfl
  | cons e l ih =>
    intro t
    rw [recordAll_cons, ih, record_ids, List.length_set]

theorem cursor_recordAll :
    ∀ (l : List (Nat × Nat × Nat)) (t : Table),
      t.cursor ≤ 30 → t.cursor + l.length ≤ 31 →
      (recordAll t l).cursor =
        if t.cursor + l.length = 31 then 0 else t.cursor + l.length := by
  intro l
  induction l with
  | nil =>
    intro t hc _
    simp only [recordAll, List.foldl, List.length_nil, Nat.add_zero]
    rw [if_neg (by omega)]
  | cons e l ih =>
    intro t hc hl
    simp only [List.length_cons] at hl
    rw [recordAll_cons]
    by_cases hw : t.cursor + 1 = 31
    · have hl0 : l = [] := List.length_eq_zero.mp (by omega)
      subst hl0
      show (record t e.1 e.2.1 e.2.2).cursor = _
      rw [record_cursor, if_pos hw]
      simp only [List.length_cons, List.length_nil]
      rw [if_pos (by omega)]
    · rw [ih (record t e.1 e.2.1 e.2.2) (by rw [record_cursor, if_neg hw]; omega)
        (by rw [record_cursor, if_neg hw]; omega), record_cursor, if_neg hw]
      simp only [List.length_cons]
      by_cases he : t.cursor + 1 + l.length = 31
      · rw [if_pos he, if_pos (by omega)]
      · rw [if_neg he, if_neg (by omega)]
        omega

theorem ids_getD_recordAll_lt :
    ∀ (l : List (Nat × Nat × Nat)) (t : Table) (j d : Nat),
      t.cursor ≤ 30 → t.cursor + l.length ≤ 31 → j < t.cursor →
      (recordAll t l).ids.getD j d = t.ids.getD j d := by
  intro l
  induction l with
  | nil => intro t j d _ _ _; rfl
  | cons e l ih =>
    intro t j d hc hl hj
    simp only [List.length_cons] at hl
    rw [recordAll_cons]
    by_cases hw : t.cursor + 1 = 31
    · have hl0 : l = [] := List.length_eq_zero.mp (by omega)
      subst hl0
      show (record t e.1 e.2.1 e.2.2).ids.getD j d = _
      rw [record_ids]
      exact getD_set_ne _ _ _ _ _ (by omega)
    · rw [ih (record t e.1 e.2.1 e.2.2) j d (by rw [record_cursor, if_neg hw]; omega)
        (by rw [record_cursor, if_neg hw]; omega)
        (by rw [record_cursor, if_neg hw]; omega), record_ids]
      exact getD_set_ne _ _ _ _ _ (by omega)

theorem ids_getD_recordAll_ge :
    ∀ (l : List (Nat × Nat × Nat)) (t : Table) (j d : Nat),
      t.cursor ≤ 30 → t.cursor + l.length ≤ 31 → t.cursor + l.length ≤ j →
      (recordAll t l).ids.getD j d = t.ids.getD j d := by
  intro l
  induction l with
  | nil => intro t j d _ _ _; rfl
  | cons e l ih =>
    intro t j d hc hl hj
    simp only [List.length_cons] at hl hj
    rw [recordAll_cons]
    by_cases hw : t.cursor + 1 = 31
    · have hl0 : l = [] := List.length_eq_zero.mp (by omega)
      subst hl0
      show (record t e.1 e.2.1 e.2.2).ids.getD j d = _
      rw [record_ids]
      exact getD_set_ne _ _ _ _ _ (by omega)
    · rw [ih (record t e.1 e.2.1 e.2.2) j d (by rw [record_cursor, if_neg hw]; omega)
        (by rw [record_cursor, if_neg hw]; omega)
        (by rw [record_cursor, if_neg hw]; omega), record_ids]
      exact getD_set_ne _ _ _ _ _ (by omega)

theorem ids_getD_recordAll_written :
    ∀ (l : List (Nat × Nat × Nat)) (t : Table) (j d : Nat),
      t.ids.length = 32 → t.cursor ≤ 30 → t.cursor + l.length ≤ 31 →
      t.cursor ≤ j → j < t.cursor + l.length →
      (recordAll t l).ids.getD j d = (l.getD (j - t.cursor) (0, 0, 0)).1 := by
  intro l
  induction l with
  | nil =>
    intro t j d _ _ _ hcj hjl
    exfalso
    simp only [List.length_nil] at hjl
    omega
  | cons e l ih =>
    intro t j d hlen hc hl hcj hjl
    simp only [List.length_cons] at hl hjl
    rw [recordAll_cons]
    by_cases hj : j = t.cursor
    · subst hj
      by_cases hw : t.cursor + 1 = 31
      · have hl0 : l = [] := List.length_eq_zero.mp (by omega)
        subst hl0
        show (record t e.1 e.2.1 e.2.2).ids.getD t.cursor d = _
        rw [record_ids, getD_set_self _ _ _ _ (by omega), Nat.sub_self,
          List.getD_cons_zero]
      · rw [ids_getD_recordAll_lt l (record t e.1 e.2.1 e.2.2) t.cursor d
          (by rw [record_cursor, if_neg hw]; omega)
          (by rw [record_cursor, if_neg hw]; omega)
          (by rw [record_cursor, if_neg hw]; omega), record_ids,
          getD_set_self _ _ _ _ (by omega), Nat.sub_self, List.getD_cons_zero]
    · by_cases hw : t.cursor + 1 = 31
      · exfalso
        have hl0 : l = [] := List.length_eq_zero.mp (by omega)
        subst hl0
        simp only [List.length_nil] at hjl
        omega
      · rw [ih (record t e.1 e.2.1 e.2.2) j d
          (by rw [record_ids, List.length_set]; exact hlen)
          (by rw [record_cursor, if_neg hw]; omega)
          (by rw [record_cursor, if_neg hw]; omega)
          (by rw [record_cursor, if_neg hw]; omega)
          (by rw [record_cursor, if_neg hw]; omega)]
        rw [record_cursor, if_neg hw,
          show j - t.cursor = j - (t.cursor + 1) + 1 from by omega,
          List.getD_cons_succ]

/-- C8 as amended: recording 32 entries with pairwise-distinct
transaction ids, the first of which is nonzero, into the fresh table
overwrites the slot of the first entry (the 32nd record lands on slot 0
because the cursor wraps from 31 back to 0 after the 31st record, so
slot 31 - the 32nd slot - is never written and keeps id 0), and
resolving the id of the first entry afterwards returns not-found. -/
theorem c8_ring_overwrite (l : List (Nat × Nat × Nat))
    (hlen : l.length = 32)
    (hd : (l.map Prod.fst).Pairwise (fun u v => u ≠ v))
    (h0 : (l.getD 0 (0, 0, 0)).1 ≠ 0) :
    resolve (recordAll tableInit l) (l.getD 0 (0, 0, 0)).1 = none ∧
      (recordAll tableInit l).ids.getD 31 1 = 0 := by
  have hne : l ≠ [] := by
    intro h
    rw [h] at hlen
    simp at hlen
  have hsplit := List.dropLast_append_getLast hne
  have hal : l.dropLast.length = 31 := by rw [List.length_dropLast, hlen]
  have hstep : recordAll tableInit l =
      record (recordAll tableInit l.dropLast) (l.getLast hne).1
        (l.getLast hne).2.1 (l.getLast hne).2.2 := by
    conv_lhs => rw [← hsplit]
    rw [recordAll_append]
    rfl
  have hic : tableInit.cursor = 0 := rfl
  have hil : tableInit.ids.length = 32 := rfl
  have hcur : (recordAll tableInit l.dropLast).cursor = 0 := by
    rw [cursor_recordAll l.dropLast tableInit (by omega) (by omega), hal, hic]
    decide
  have hlen2 : (recordAll tableInit l.dropLast).ids.length = 32 := by
    rw [ids_length_recordAll, hil]
  have hslot0 : ∀ d, (recordAll tableInit l).ids.getD 0 d = (l.getLast hne).1 := by
    intro d
    rw [hstep, record_ids, hcur]
    exact getD_set_self _ _ _ _ (by omega)
  have hslotj : ∀ j d, 1 ≤ j → j ≤ 30 →
      (recordAll tableInit l).ids.getD j d = (l.getD j (0, 0, 0)).1 := by
    intro j d h1 h2
    rw [hstep, record_ids, hcur, getD_set_ne _ _ _ 0 j (by omega),
      ids_getD_recordAll_written l.dropLast tableInit j d hil (by omega)
        (by omega) (by omega) (by omega), hic, Nat.sub_zero,
      List.getD_eq_getElem l.dropLast _ (by omega), List.getElem_dropLast,
      List.getD_eq_getElem l _ (by omega)]
  have hslot31 : ∀ d, (recordAll tableInit l).ids.getD 31 d = 0 := by
    intro d
    rw [hstep, record_ids, hcur, getD_set_ne _ _ _ 0 31 (by omega),
      ids_getD_recordAll_ge l.dropLast tableInit 31 d (by omega) (by omega)
        (by omega), List.getD_eq_getElem tableInit.ids _ (by rw [hil]; omega)]
    rfl
  obtain ⟨e, rest, rfl⟩ : ∃ e rest, l = e :: rest := by
    cases l with
    | nil => exact absurd rfl hne
    | cons e rest => exact ⟨e, rest, rfl⟩
  have hrne : rest ≠ [] := by
    intro h
    rw [h] at hlen
    simp at hlen
  have hdd : ∀ y ∈ rest.map Prod.fst, e.1 ≠ y := by
    simp only [List.map_cons, List.pairwise_cons] at hd
    exact hd.1
  have hx : ((e :: rest).getD 0 (0, 0, 0)).1 = e.1 := by
    rw [List.getD_cons_zero]
  constructor
  · unfold resolve
    apply resolveAux_eq_none
    intro i hi
    obtain ⟨j, hj, hji⟩ := List.mem_iff_getElem.mp hi
    have hflen : (recordAll tableInit (e :: rest)).ids.length = 32 := by
      rw [ids_length_recordAll, hil]
    have hival : i = (recordAll tableInit (e :: rest)).ids.getD j 0 := by
      rw [List.getD_eq_getElem _ _ (by omega), hji]
    have hj32 : j < 32 := by omega
    rw [hx]
    rcases Nat.lt_or_ge j 1 with hj0 | hj1
    · have hj00 : j = 0 := by omega
      subst hj00
      rw [hival, hslot0]
      have hzr : ((e :: rest).getLast hne).1 ∈ rest.map Prod.fst := by
        rw [List.getLast_cons hrne]
        exact List.mem_map_of_mem Prod.fst (List.getLast_mem hrne)
      exact Ne.symm (hdd _ hzr)
    · rcases Nat.lt_or_ge j 31 with hjm | hjtop
      · rw [hival, hslotj j 0 (by omega) (by omega)]
        have hmem : ((e :: rest).getD j (0, 0, 0)).1 ∈ rest.map Prod.fst := by
          rw [show j = (j - 1) + 1 from by omega, List.getD_cons_succ,
            List.getD_eq_getElem rest _ (by simp only [List.length_cons] at hlen; omega)]
          exact List.mem_map_of_mem Prod.fst (List.getElem_mem _)
        exact Ne.symm (hdd _ hmem)
      · have hj31 : j = 31 := by omega
        subst hj31
        rw [hival, hslot31]
        exact Ne.symm h0
  · exact hslot31 1

/-- Witness for the amended C8: the 32 distinct nonzero ids 1, ..., 32. -/
theorem c8_ring_overwrite_witness :
    (c8recsW.length = 32 ∧ (c8recsW.map Prod.fst).Pairwise (fun u v => u ≠ v) ∧
        (c8recsW.getD 0 (0, 0, 0)).1 ≠ 0) ∧
      resolve (recordAll tableInit c8recsW) (c8recsW.getD 0 (0, 0, 0)).1 = none :=
  ⟨⟨by decide, by decide, by decide⟩,
    (c8_ring_overwrite c8recsW (by decide) (by decide) (by decide)).1⟩

end DnsProxy
